import Mathlib

/-!
Verification of the chat-turn orchestration pipeline of the `llamaindex_rag`
repository (file `routers/chat.py`), against its natural-language specification.

The embedding models, directly from the source:
- the retrieval-hit curation of `event_generator` (score sort, 0.15 threshold,
  0.01 fallback, per-`(workspace_id, file_name)` display dedup, full persisted list),
- the session resolution and ownership check of `chat_endpoint`,
- the history-window construction (last 10 messages, current-question exclusion),
- the metadata-filter construction from role and department,
- the streaming frame order of `event_generator`, and
- the read-time source dedup of `get_session_messages`.

Scores are floats in the source; they are modelled as exact rationals.  Database
rows are modelled as records in insertion order, with `created_at` drawn from a
monotone clock.  Failures the source can raise are modelled with `Except`.
-/

namespace LlamaRag

deriving instance DecidableEq for Except

/-- A retrieved source node as `event_generator` consumes it: an optional
relevance score (`node.score` may be `None`) and the metadata fields the code
reads (`file_name`, `page_label`, `workspace_id`) plus the node text. -/
structure SourceNode where
  score : Option ℚ
  file_name : String
  page_label : Option String
  workspace_id : String
  text : String
deriving DecidableEq, Repr

/-- The sort and threshold key `node.score or 0.0` used by the code. -/
def scoreKey (n : SourceNode) : ℚ := n.score.getD 0

/-- The `0.15` threshold literal of `routers/chat.py`. -/
def scoreThreshold : ℚ := mkRat 15 100

/-- The `0.01` fallback floor literal of `routers/chat.py`. -/
def scoreFloor : ℚ := mkRat 1 100

/-- Descending-score ordering used by `sorted(raw_nodes, key=..., reverse=True)`:
`a` may precede `b` when `b`'s key is at most `a`'s key. -/
def nodeLE (a b : SourceNode) : Prop := scoreKey b ≤ scoreKey a

instance : DecidableRel nodeLE :=
  fun a b => (inferInstance : Decidable (scoreKey b ≤ scoreKey a))

instance : IsTotal SourceNode nodeLE :=
  ⟨fun a b => le_total (scoreKey b) (scoreKey a)⟩

instance : IsTrans SourceNode nodeLE :=
  ⟨fun _ _ _ h1 h2 => le_trans h2 h1⟩

/-- The sort `sorted(raw_nodes, key=lambda n: n.score or 0.0, reverse=True)`: a stable
sort, descending by `scoreKey`. -/
def sortDesc (l : List SourceNode) : List SourceNode := List.insertionSort nodeLE l

/-- Lines 207-212 of `routers/chat.py`: after sorting, if the top score-key is
below 0.15, keep only the top hit and only when `raw_nodes[0].score > 0.01` —
this comparison reads the RAW score, so a missing (`None`) score raises a
`TypeError`, modelled as `Except.error ()`.  Otherwise keep every hit whose
score-key is at least 0.15. -/
def curate (nodes : List SourceNode) : Except Unit (List SourceNode) :=
  match sortDesc nodes with
  | [] => Except.ok []
  | top :: rest =>
    if scoreKey top < scoreThreshold then
      match top.score with
      | none => Except.error ()
      | some s => Except.ok (if scoreFloor < s then [top] else [])
    else
      Except.ok ((top :: rest).filter (fun n => decide (scoreThreshold ≤ scoreKey n)))

/-- An entry of `frontend_source_list`: the display form of a source, without
page label or score. -/
structure ChatSource where
  file_name : String
  workspace_id : String
  text_chunk : String
deriving DecidableEq, Repr

/-- An entry of `db_source_list`: the persisted form of a source, with page
label and rounded score. -/
structure DbSource where
  file_name : String
  page : Option String
  score : ℚ
  workspace_id : String
  text_chunk : String
deriving DecidableEq, Repr

/-- The dedup key `(workspace_id, file_name)` of a retrieved node. -/
def pairOf (n : SourceNode) : String × String := (n.workspace_id, n.file_name)

/-- The dedup key of a persisted source, as read back by `get_session_messages`. -/
def srcPair (s : DbSource) : String × String := (s.workspace_id, s.file_name)

/-- Python's `round(x, 4)` on an exact rational: round half to even at four
decimal places. -/
def round4 (x : ℚ) : ℚ :=
  let n := x.num * 10000
  let d := (x.den : ℤ)
  let f := Int.fdiv n d
  let r2 := 2 * (n - f * d)
  let i := if r2 < d then f else if d < r2 then f + 1 else if f % 2 = 0 then f else f + 1
  mkRat i 10000

/-- The `chat_source` record appended to `frontend_source_list`. -/
def csOf (n : SourceNode) : ChatSource :=
  ⟨n.file_name, n.workspace_id, n.text⟩

/-- The record appended to `db_source_list`: page label, score rounded to 4
decimal places (after `score = node.score or 0.0`), tenant id, text fragment. -/
def dbOf (n : SourceNode) : DbSource :=
  ⟨n.file_name, n.page_label, round4 (scoreKey n), n.workspace_id, n.text⟩

/-- The loop over the kept nodes (lines 214-242): builds the deduplicated
`frontend_source_list` (tracking `seen_files`) and the full `db_source_list`. -/
def buildListsAux : List SourceNode → List (String × String) → List ChatSource × List DbSource
  | [], _ => ([], [])
  | n :: rest, seen =>
    if pairOf n ∈ seen then
      let p := buildListsAux rest seen
      (p.1, dbOf n :: p.2)
    else
      let p := buildListsAux rest (pairOf n :: seen)
      (csOf n :: p.1, dbOf n :: p.2)

/-- Both source lists of one turn, from the kept node list. -/
def buildLists (kept : List SourceNode) : List ChatSource × List DbSource :=
  buildListsAux kept []

/-- Generic first-occurrence dedup by a key function, with an accumulator of
already-seen keys.  This is the loop shape of the read-time dedup in
`get_session_messages` and the specification of the display-list dedup. -/
def dedupByKeyAux {α κ : Type} [DecidableEq κ] (key : α → κ) :
    List α → List κ → List α
  | [], _ => []
  | a :: rest, seen =>
    if key a ∈ seen then dedupByKeyAux key rest seen
    else a :: dedupByKeyAux key rest (key a :: seen)

/-- First-occurrence dedup by a key function. -/
def dedupByKey {α κ : Type} [DecidableEq κ] (key : α → κ) (l : List α) : List α :=
  dedupByKeyAux key l []

/-- One NDJSON frame of the streaming response. -/
inductive Frame where
  | session_id (data : String)
  | sources (data : List ChatSource)
  | content (data : String)
deriving DecidableEq, Repr

/-- Is this a `session_id` frame? -/
def isSessionIdFrame : Frame → Bool
  | .session_id _ => true
  | _ => false

/-- Is this a `sources` frame? -/
def isSourcesFrame : Frame → Bool
  | .sources _ => true
  | _ => false

/-- The payloads of the `content` frames, in emission order. -/
def contentPayloads (fs : List Frame) : List String :=
  fs.filterMap (fun f => match f with | .content d => some d | _ => none)

/-- A `chat_messages` row: session id, role, content, embedded sources,
creation time. -/
structure DbChatMessage where
  session_id : String
  role : String
  content : String
  sources : List DbSource
  created_at : ℕ
deriving DecidableEq, Repr

/-- Outcome of running `event_generator` to exhaustion: the frames emitted, the
assistant message written by the final commit (if any), and whether the
generator died on an uncaught exception. -/
structure GenResult where
  frames : List Frame
  persisted : Option DbChatMessage
  errored : Bool
deriving DecidableEq, Repr

/-- The `event_generator` of `chat_endpoint` (lines 193-271): emit the
`session_id` frame when the session is new, curate the retrieval hits, emit the
`sources` frame with the display list, emit one `content` frame per generation
token while accumulating `full_ai_response`, then write the assistant message —
any exception of that final write is caught and swallowed (`persist_ok = false`
models the write failing). -/
def event_generator (is_new : Bool) (sid : String) (nodes : List SourceNode)
    (tokens : List String) (persist_ok : Bool) (now : ℕ) : GenResult :=
  let pre := if is_new then [Frame.session_id sid] else []
  match curate nodes with
  | .error _ => ⟨pre, none, true⟩
  | .ok kept =>
    let lists := buildLists kept
    let frames := pre ++ Frame.sources lists.1 :: tokens.map Frame.content
    let msg : DbChatMessage := ⟨sid, "assistant", String.join tokens, lists.2, now⟩
    if persist_ok then ⟨frames, some msg, false⟩ else ⟨frames, none, false⟩

/-- The fields of `models.User` the chat endpoint reads. -/
structure UserRec where
  id : ℕ
  role : String
  department_id : Option String
deriving DecidableEq, Repr

/-- A `chat_sessions` row. -/
structure SessionRec where
  id : String
  user_id : ℕ
  title : String
  created_at : ℕ
  updated_at : ℕ
deriving DecidableEq, Repr

/-- The database state the chat router touches: sessions and messages, each in
insertion order with monotone `created_at`. -/
structure Db where
  sessions : List SessionRec
  messages : List DbChatMessage
deriving DecidableEq, Repr

/-- The query `db.query(ChatSession).filter(id == sid, user_id == uid).first()`. -/
def lookupSession (db : Db) (sid : String) (uid : ℕ) : Option SessionRec :=
  db.sessions.find? (fun s => s.id == sid && s.user_id == uid)

/-- Python string slicing `s[:n]`: the first `n` characters. -/
def strTake (s : String) (n : ℕ) : String := String.mk (s.data.take n)

/-- Session management of `chat_endpoint` (lines 75-105): look the id up only
when one was given, scoped to the calling user; on a miss (or no id) create a
new session with a fresh uuid and title = first 20 characters of the question;
on a hit bump `updated_at`.  Returns the session id to use, the `is_new_session`
flag, and the updated database. -/
def resolveOrCreate (db : Db) (sid? : Option String) (uid : ℕ) (q : String)
    (freshId : String) (now : ℕ) : String × Bool × Db :=
  let found := match sid? with
    | some sid => lookupSession db sid uid
    | none => none
  match found with
  | some s =>
    let upd := fun t : SessionRec =>
      if t.id == s.id && t.user_id == uid then { t with updated_at := now } else t
    (s.id, false, { db with sessions := db.sessions.map upd })
  | none =>
    (freshId, true,
      { db with sessions := db.sessions ++ [⟨freshId, uid, strTake q 20, now, now⟩] })

/-- All messages of one session, in chronological (stored) order. -/
def sessionMessages (db : Db) (sid : String) : List DbChatMessage :=
  db.messages.filter (fun m => m.session_id == sid)

/-- The query `order_by(created_at.desc()).limit(10)` then `.reverse()`: the most recent
10 messages of the session, in chronological order. -/
def loadRecentHistory (db : Db) (sid : String) : List DbChatMessage :=
  (((sessionMessages db sid).reverse).take 10).reverse

/-- LlamaIndex message roles as the code maps them. -/
inductive LlamaRole where
  | user
  | assistant
deriving DecidableEq, Repr

/-- The conversion `MessageRole.USER if msg.role == "user" else MessageRole.ASSISTANT`,
paired with the message content. -/
def toLlama (m : DbChatMessage) : LlamaRole × String :=
  (if m.role == "user" then LlamaRole.user else LlamaRole.assistant, m.content)

/-- The `continue` guard of the history loop: drop an entry exactly when its
content equals the current question and its role is `user`. -/
def keepInHistory (q : String) (m : DbChatMessage) : Bool :=
  !(m.content == q && m.role == "user")

/-- The recent messages that survive the current-question exclusion. -/
def historyKeptMsgs (db : Db) (sid : String) (q : String) : List DbChatMessage :=
  (loadRecentHistory db sid).filter (keepInHistory q)

/-- The `history_messages` list handed to `ChatMemoryBuffer` (lines 119-141). -/
def buildHistory (db : Db) (sid : String) (q : String) : List (LlamaRole × String) :=
  (historyKeptMsgs db sid q).map toLlama

/-- One `MetadataFilter(key=..., value=...)`. -/
structure MetadataFilter where
  key : String
  value : String
deriving DecidableEq, Repr

/-- The condition `FilterCondition.AND` or `FilterCondition.OR`. -/
inductive FilterCondition where
  | and
  | or
deriving DecidableEq, Repr

/-- The record `MetadataFilters(filters=..., condition=...)`; when the code passes no
condition the library default `AND` applies. -/
structure MetadataFilters where
  filters : List MetadataFilter
  condition : FilterCondition
deriving DecidableEq, Repr

/-- Python truthiness of `user.department_id` (`None` and `""` are falsy). -/
def deptTruthy : Option String → Bool
  | none => false
  | some s => !s.isEmpty

/-- Filter construction of `chat_endpoint` (lines 146-160): a falsy department
id gives the global-only filter, a truthy one gives department OR global, and
an `admin` role overrides either with no filter at all. -/
def build_filters (u : UserRec) : Option MetadataFilters :=
  let base :=
    if deptTruthy u.department_id = false then
      MetadataFilters.mk [⟨"workspace_id", "global"⟩] FilterCondition.and
    else
      MetadataFilters.mk
        [⟨"workspace_id", u.department_id.getD ""⟩, ⟨"workspace_id", "global"⟩]
        FilterCondition.or
  if u.role == "admin" then none else some base

/-- Satisfaction of one metadata filter by a document's metadata valuation. -/
def evalFilter (doc : String → String) (f : MetadataFilter) : Bool :=
  doc f.key == f.value

/-- Satisfaction of a `MetadataFilters` conjunct/disjunct by a document. -/
def evalFilters (doc : String → String) (fs : MetadataFilters) : Bool :=
  match fs.condition with
  | .and => fs.filters.all (evalFilter doc)
  | .or => fs.filters.any (evalFilter doc)

/-- One full chat turn (the parts of `chat_endpoint` with observable effects):
resolve or create the session, persist the user message, run the generator,
and append the assistant message if its write committed. -/
def chat_turn (db : Db) (sid? : Option String) (user : UserRec) (q : String)
    (freshId : String) (now : ℕ) (nodes : List SourceNode) (tokens : List String)
    (persist_ok : Bool) : GenResult × Db :=
  let r0 := resolveOrCreate db sid? user.id q freshId now
  let sid := r0.1
  let is_new := r0.2.1
  let db1 := r0.2.2
  let db2 := { db1 with messages := db1.messages ++ [⟨sid, "user", q, [], now⟩] }
  let r := event_generator is_new sid nodes tokens persist_ok now
  let db3 := match r.persisted with
    | some msg => { db2 with messages := db2.messages ++ [msg] }
    | none => db2
  (r, db3)

/-- The per-message rewrite `get_session_messages` applies before returning:
an assistant message with a non-empty source list gets its sources deduplicated
by `(workspace_id, file_name)`, first occurrence kept; anything else is
returned unchanged. -/
def readTransform (m : DbChatMessage) : DbChatMessage :=
  if m.role == "assistant" && !m.sources.isEmpty then
    { m with sources := dedupByKey srcPair m.sources }
  else m

/-- The `GET /sessions/{session_id}` endpoint (lines 293-325): 404 unless the
session is owned by the caller, else the session's messages in chronological
order with assistant sources deduplicated at read time. -/
def get_session_messages (db : Db) (sid : String) (uid : ℕ) :
    Except Unit (List DbChatMessage) :=
  match lookupSession db sid uid with
  | none => Except.error ()
  | some _ => Except.ok ((sessionMessages db sid).map readTransform)

/-! ## Shared lemmas -/

/-- The source-list loop builds the display list by first-occurrence dedup and
the persisted list by a plain map, for any starting `seen` set. -/
theorem buildListsAux_eq (l : List SourceNode) :
    ∀ seen, buildListsAux l seen = ((dedupByKeyAux pairOf l seen).map csOf, l.map dbOf) := by
  induction l with
  | nil => intro seen; rfl
  | cons n rest ih =>
    intro seen
    by_cases h : pairOf n ∈ seen
    · simp [buildListsAux, dedupByKeyAux, h, ih]
    · simp [buildListsAux, dedupByKeyAux, h, ih]

/-- First-occurrence dedup yields a subsequence of the input. -/
theorem dedupByKeyAux_sublist {α κ : Type} [DecidableEq κ] (key : α → κ) :
    ∀ (l : List α) (seen : List κ), (dedupByKeyAux key l seen).Sublist l := by
  intro l
  induction l with
  | nil => intro seen; simp [dedupByKeyAux]
  | cons a rest ih =>
    intro seen
    by_cases h : key a ∈ seen
    · simp only [dedupByKeyAux, if_pos h]
      exact (ih seen).cons a
    · simp only [dedupByKeyAux, if_neg h]
      exact (ih (key a :: seen)).cons₂ a

/-- The keys of a first-occurrence dedup are pairwise distinct and avoid the
already-seen set. -/
theorem dedupByKeyAux_nodup {α κ : Type} [DecidableEq κ] (key : α → κ) :
    ∀ (l : List α) (seen : List κ),
      ((dedupByKeyAux key l seen).map key).Nodup
      ∧ ∀ k ∈ (dedupByKeyAux key l seen).map key, k ∉ seen := by
  intro l
  induction l with
  | nil => intro seen; simp [dedupByKeyAux]
  | cons a rest ih =>
    intro seen
    by_cases h : key a ∈ seen
    · simpa [dedupByKeyAux, h] using ih seen
    · have ihh := ih (key a :: seen)
      simp only [dedupByKeyAux, if_neg h, List.map_cons]
      refine ⟨List.nodup_cons.mpr ⟨fun hmem => ?_, ihh.1⟩, fun k hk => ?_⟩
      · exact (ihh.2 (key a) hmem) (List.mem_cons_self _ _)
      · rcases List.mem_cons.mp hk with heq | htail
        · rw [heq]; exact h
        · exact fun hseen => (ihh.2 k htail) (List.mem_cons_of_mem _ hseen)

/-- Every input element's key survives a first-occurrence dedup (or was
already seen). -/
theorem dedupByKeyAux_covers {α κ : Type} [DecidableEq κ] (key : α → κ) :
    ∀ (l : List α) (seen : List κ) (a : α), a ∈ l →
      key a ∈ seen ∨ key a ∈ (dedupByKeyAux key l seen).map key := by
  intro l
  induction l with
  | nil => intro seen a ha; cases ha
  | cons b rest ih =>
    intro seen a ha
    by_cases h : key b ∈ seen
    · simp only [dedupByKeyAux, if_pos h]
      rcases List.mem_cons.mp ha with heq | htail
      · exact Or.inl (heq ▸ h)
      · exact ih seen a htail
    · simp only [dedupByKeyAux, if_neg h, List.map_cons]
      rcases List.mem_cons.mp ha with heq | htail
      · exact Or.inr (heq ▸ List.mem_cons_self _ _)
      · rcases ih (key b :: seen) a htail with hs | hd
        · rcases List.mem_cons.mp hs with heq2 | hs2
          · exact Or.inr (heq2 ▸ List.mem_cons_self _ _)
          · exact Or.inl hs2
        · exact Or.inr (List.mem_cons_of_mem _ hd)

/-- Every element kept by a first-occurrence dedup is the first occurrence of
its key in the input (relative to the already-seen set). -/
theorem dedupByKeyAux_first_occ {α κ : Type} [DecidableEq κ] (key : α → κ) :
    ∀ (l : List α) (seen : List κ) (a : α), a ∈ dedupByKeyAux key l seen →
      key a ∉ seen ∧ ∃ l₁ l₂, l = l₁ ++ a :: l₂ ∧ key a ∉ l₁.map key := by
  intro l
  induction l with
  | nil => intro seen a ha; simp [dedupByKeyAux] at ha
  | cons b rest ih =>
    intro seen a ha
    by_cases h : key b ∈ seen
    · rw [dedupByKeyAux, if_pos h] at ha
      obtain ⟨hns, l₁, l₂, hsplit, hnfirst⟩ := ih seen a ha
      refine ⟨hns, b :: l₁, l₂, by rw [hsplit]; rfl, ?_⟩
      simp only [List.map_cons, List.mem_cons, not_or]
      exact ⟨fun heq => hns (heq ▸ h), hnfirst⟩
    · rw [dedupByKeyAux, if_neg h] at ha
      rcases List.mem_cons.mp ha with heq | htail
      · exact ⟨heq ▸ h, [], rest, heq ▸ rfl, by simp⟩
      · obtain ⟨hns, l₁, l₂, hsplit, hnfirst⟩ := ih (key b :: seen) a htail
        have hne : key a ≠ key b := fun heq => hns (heq ▸ List.mem_cons_self _ _)
        refine ⟨fun hseen => hns (List.mem_cons_of_mem _ hseen),
          b :: l₁, l₂, by rw [hsplit]; rfl, ?_⟩
        simp only [List.map_cons, List.mem_cons, not_or]
        exact ⟨hne, hnfirst⟩

/-- The dedup key of a display entry built by `csOf` is the node's pair. -/
theorem map_pair_csOf (l : List SourceNode) :
    (l.map csOf).map (fun c => (c.workspace_id, c.file_name)) = l.map pairOf := by
  rw [List.map_map]; rfl

/-- The first component of `chat_turn` is the generator result. -/
theorem chat_turn_fst (db : Db) (sid? : Option String) (user : UserRec) (q freshId : String)
    (now : ℕ) (nodes : List SourceNode) (tokens : List String) (persist_ok : Bool) :
    (chat_turn db sid? user q freshId now nodes tokens persist_ok).1
      = event_generator (resolveOrCreate db sid? user.id q freshId now).2.1
          (resolveOrCreate db sid? user.id q freshId now).1 nodes tokens persist_ok now := rfl

/-- The function `chat_turn` never touches the session table after session resolution. -/
theorem chat_turn_snd_sessions (db : Db) (sid? : Option String) (user : UserRec)
    (q freshId : String) (now : ℕ) (nodes : List SourceNode) (tokens : List String)
    (persist_ok : Bool) :
    (chat_turn db sid? user q freshId now nodes tokens persist_ok).2.sessions
      = (resolveOrCreate db sid? user.id q freshId now).2.2.sessions := by
  simp only [chat_turn]
  split <;> rfl

/-- The content payloads of a pure token stream are the tokens themselves. -/
theorem contentPayloads_map (tokens : List String) :
    contentPayloads (tokens.map Frame.content) = tokens := by
  induction tokens with
  | nil => rfl
  | cons t ts ih =>
    simp only [List.map_cons, contentPayloads, List.filterMap_cons] at ih ⊢
    rw [ih]

/-- The content payloads of one turn's frame stream are exactly the generation
tokens. -/
theorem contentPayloads_stream (is_new : Bool) (sid : String) (d : List ChatSource)
    (tokens : List String) :
    contentPayloads ((if is_new then [Frame.session_id sid] else [])
        ++ Frame.sources d :: tokens.map Frame.content) = tokens := by
  have h := contentPayloads_map tokens
  simp only [contentPayloads] at h
  cases is_new <;>
    simp [contentPayloads, List.filterMap_append, List.filterMap_cons, h]

/-- Whether or not the final write commits, the generator emits the same
frames. -/
theorem event_generator_frames (is_new : Bool) (sid : String) (nodes : List SourceNode)
    (tokens : List String) (persist_ok : Bool) (now : ℕ) (kept : List SourceNode)
    (hc : curate nodes = Except.ok kept) :
    (event_generator is_new sid nodes tokens persist_ok now).frames
      = (if is_new then [Frame.session_id sid] else [])
          ++ Frame.sources (buildLists kept).1 :: tokens.map Frame.content := by
  cases persist_ok <;> simp [event_generator, hc]

/-- A frame predicate that rejects `content` frames counts no token frame. -/
theorem countP_content_map (p : Frame → Bool) (hp : ∀ t, p (Frame.content t) = false)
    (tokens : List String) : (tokens.map Frame.content).countP p = 0 := by
  rw [List.countP_eq_zero]
  intro a ha
  obtain ⟨t, _, rfl⟩ := List.mem_map.mp ha
  simp [hp t]

/-- After the `updated_at` bump of an owned session, looking the session up
again returns the same record with `updated_at` set to the bump time. -/
theorem lookupSession_after_touch (sessions : List SessionRec) (sid : String) (uid : ℕ)
    (s : SessionRec) (now : ℕ)
    (h : sessions.find? (fun t => t.id == sid && t.user_id == uid) = some s) :
    (sessions.map (fun t => if t.id == s.id && t.user_id == uid
        then { t with updated_at := now } else t)).find?
        (fun t => t.id == sid && t.user_id == uid)
      = some { s with updated_at := now } := by
  have hp := List.find?_some h
  have huid : s.user_id = uid := by
    have h2 := Bool.and_elim_right hp
    simpa using h2
  rw [List.find?_map]
  have hfun : ((fun t : SessionRec => t.id == sid && t.user_id == uid) ∘
      (fun t : SessionRec => if t.id == s.id && t.user_id == uid
        then { t with updated_at := now } else t))
      = (fun t : SessionRec => t.id == sid && t.user_id == uid) := by
    funext t
    by_cases hcond : (t.id == s.id && t.user_id == uid) = true
    · simp only [Function.comp, if_pos hcond]
    · simp only [Function.comp, if_neg hcond]
  rw [hfun, h]
  have hself : (s.id == s.id && s.user_id == uid) = true := by simp [huid]
  simp only [Option.map_some']
  rw [if_pos hself]

/-! ## Claim C1 — access filter from role and department -/

/-- Claim C1: the retrieval filter is derived solely from role and department
id — an `admin` gets no filter at all regardless of department; a `member` with
a (non-empty) department id gets a filter matching `workspace_id` equal to the
department OR equal to `"global"`; a `member` with no department id gets a
filter matching `workspace_id` equal to `"global"` only. -/
theorem c1_access_scope (u : UserRec) :
    (u.role = "admin" → build_filters u = none)
  ∧ (u.role = "member" → ∀ d : String, u.department_id = some d → d ≠ "" →
      build_filters u
        = some ⟨[⟨"workspace_id", d⟩, ⟨"workspace_id", "global"⟩], FilterCondition.or⟩
      ∧ ∀ doc : String → String,
          evalFilters doc
              ⟨[⟨"workspace_id", d⟩, ⟨"workspace_id", "global"⟩], FilterCondition.or⟩
            = (doc "workspace_id" == d || doc "workspace_id" == "global"))
  ∧ (u.role = "member" → u.department_id = none →
      build_filters u = some ⟨[⟨"workspace_id", "global"⟩], FilterCondition.and⟩
      ∧ ∀ doc : String → String,
          evalFilters doc ⟨[⟨"workspace_id", "global"⟩], FilterCondition.and⟩
            = (doc "workspace_id" == "global")) := by
  refine ⟨fun h => ?_, fun h d hd hne => ⟨?_, fun doc => ?_⟩, fun h hd => ⟨?_, fun doc => ?_⟩⟩
  · simp [build_filters, h]
  · have hrole : (u.role == "admin") = false := by simp [h]
    have hemp : d.isEmpty = false := by
      cases he : d.isEmpty
      · rfl
      · exact absurd ((String.isEmpty_iff d).mp he) hne
    simp [build_filters, hrole, deptTruthy, hd, hemp]
  · simp [evalFilters, evalFilter]
  · have hrole : (u.role == "admin") = false := by simp [h]
    simp [build_filters, hrole, deptTruthy, hd]
  · simp [evalFilters, evalFilter]

/-- Witness for C1 at three concrete users: an admin with a department, a
member with department `"hr"`, and a member with no department. -/
theorem c1_access_scope_witness :
    build_filters ⟨1, "admin", some "hr"⟩ = none
  ∧ build_filters ⟨2, "member", some "hr"⟩
      = some ⟨[⟨"workspace_id", "hr"⟩, ⟨"workspace_id", "global"⟩], FilterCondition.or⟩
  ∧ build_filters ⟨3, "member", none⟩
      = some ⟨[⟨"workspace_id", "global"⟩], FilterCondition.and⟩ :=
  ⟨(c1_access_scope ⟨1, "admin", some "hr"⟩).1 rfl,
   ((c1_access_scope ⟨2, "member", some "hr"⟩).2.1 rfl "hr" rfl (by decide)).1,
   ((c1_access_scope ⟨3, "member", none⟩).2.2 rfl rfl).1⟩

/-! ## Claim C3 — score curation -/

/-- Claim C3: the kept set is computed by sorting hits by score descending; if
the top score is below 0.15 the kept set is the singleton top hit when its
score exceeds 0.01 and empty otherwise; if the top score is at least 0.15 the
kept set is exactly the hits scoring at least 0.15, in descending-score
order.  (Hypothesis: every hit actually carries a score, as the spec's input
contract for the curator states.) -/
theorem c3_score_curation (nodes : List SourceNode)
    (hall : ∀ n ∈ nodes, n.score ≠ none) :
    List.Perm (sortDesc nodes) nodes
  ∧ List.Sorted nodeLE (sortDesc nodes)
  ∧ (∀ top rest, sortDesc nodes = top :: rest →
      (scoreKey top < scoreThreshold →
        curate nodes = Except.ok (if scoreFloor < scoreKey top then [top] else []))
      ∧ (scoreThreshold ≤ scoreKey top →
        curate nodes
          = Except.ok ((sortDesc nodes).filter (fun n => decide (scoreThreshold ≤ scoreKey n)))
        ∧ List.Perm ((sortDesc nodes).filter (fun n => decide (scoreThreshold ≤ scoreKey n)))
            (nodes.filter (fun n => decide (scoreThreshold ≤ scoreKey n)))
        ∧ List.Sorted nodeLE
            ((sortDesc nodes).filter (fun n => decide (scoreThreshold ≤ scoreKey n))))) := by
  refine ⟨List.perm_insertionSort nodeLE nodes, List.sorted_insertionSort nodeLE nodes,
    fun top rest h => ⟨fun hlt => ?_, fun hge => ⟨?_, ?_, ?_⟩⟩⟩
  · have htop : top ∈ nodes := by
      refine (List.perm_insertionSort nodeLE nodes).subset ?_
      rw [show List.insertionSort nodeLE nodes = sortDesc nodes from rfl, h]
      exact List.mem_cons_self top rest
    obtain ⟨s, hs⟩ := Option.ne_none_iff_exists'.mp (hall top htop)
    have hkey : scoreKey top = s := by simp [scoreKey, hs]
    simp only [curate, h, hs]
    rw [if_pos hlt, hkey]
  · simp only [curate, h, if_neg (not_lt.mpr hge)]
  · exact (List.perm_insertionSort nodeLE nodes).filter _
  · exact (List.sorted_insertionSort nodeLE nodes).filter _

/-- Witness for C3 at the spec's own example, scores `[0.05, 0.2, 0.3]`: the
kept set is the 0.3 and 0.2 hits, in descending order. -/
theorem c3_score_curation_witness :
    curate [⟨some (mkRat 5 100), "a.pdf", none, "hr", "ta"⟩,
            ⟨some (mkRat 2 10), "b.pdf", none, "hr", "tb"⟩,
            ⟨some (mkRat 3 10), "c.pdf", none, "global", "tc"⟩]
      = Except.ok [⟨some (mkRat 3 10), "c.pdf", none, "global", "tc"⟩,
                   ⟨some (mkRat 2 10), "b.pdf", none, "hr", "tb"⟩] := by
  have h := c3_score_curation
    [⟨some (mkRat 5 100), "a.pdf", none, "hr", "ta"⟩,
     ⟨some (mkRat 2 10), "b.pdf", none, "hr", "tb"⟩,
     ⟨some (mkRat 3 10), "c.pdf", none, "global", "tc"⟩] (by decide)
  have h2 := ((h.2.2 ⟨some (mkRat 3 10), "c.pdf", none, "global", "tc"⟩
    [⟨some (mkRat 2 10), "b.pdf", none, "hr", "tb"⟩,
     ⟨some (mkRat 5 100), "a.pdf", none, "hr", "ta"⟩] (by decide)).2 (by decide)).1
  rw [h2]
  decide

/-! ## Claim C9 — totality of curation under missing scores -/

/-- Claim C9 is refuted at this input: a single hit whose `score` is `None`
sends curation into the fallback branch, where `raw_nodes[0].score > 0.01`
compares `None` with a float and raises (modelled as `Except.error`). -/
theorem c9_counterexample :
    curate [⟨none, "a.pdf", none, "global", "t"⟩] = Except.error () := by decide

/-- Claim C9 (amended): a missing score is treated as 0.0 in the sort and in
the 0.15-threshold comparisons, but the fallback branch compares the raw score
of the top-sorted hit against 0.01, so curation raises exactly when the sorted
hit list is non-empty, its head's score-key is below 0.15, and its head's raw
score is missing; in every other case curation returns normally. -/
theorem c9_curation_error_iff (nodes : List SourceNode) :
    (∃ e, curate nodes = Except.error e)
      ↔ ∃ top rest, sortDesc nodes = top :: rest
          ∧ top.score = none ∧ scoreKey top < scoreThreshold := by
  constructor
  · intro ⟨e, he⟩
    cases h : sortDesc nodes with
    | nil => simp [curate, h] at he
    | cons top rest =>
      by_cases hlt : scoreKey top < scoreThreshold
      · cases hs : top.score with
        | none => exact ⟨top, rest, rfl, hs, hlt⟩
        | some s => simp [curate, h, if_pos hlt, hs] at he
      · simp [curate, h, if_neg hlt] at he
  · intro ⟨top, rest, h, hs, hlt⟩
    exact ⟨(), by simp [curate, h, if_pos hlt, hs]⟩

/-! ## Claim C4 — display list vs persisted list -/

/-- Claim C4: from a kept set, the display list contains exactly the first
occurrence of each `(tenantId, fileName)` pair in kept order (each kept hit's
pair is represented, pairs are never repeated, and each display entry sits at
the first position of its pair), while the persisted list maps every kept hit
in order, without dedup, to its page label, tenant id, text fragment and score
rounded to 4 decimal places (the content of `dbOf`). -/
theorem c4_display_vs_persisted (kept : List SourceNode) :
    (buildLists kept).2 = kept.map dbOf
  ∧ (buildLists kept).1 = (dedupByKey pairOf kept).map csOf
  ∧ (dedupByKey pairOf kept).Sublist kept
  ∧ ((buildLists kept).1.map (fun c => (c.workspace_id, c.file_name))).Nodup
  ∧ (∀ n ∈ kept, (n.workspace_id, n.file_name)
      ∈ (buildLists kept).1.map (fun c => (c.workspace_id, c.file_name)))
  ∧ (∀ n ∈ dedupByKey pairOf kept,
      ∃ l₁ l₂, kept = l₁ ++ n :: l₂ ∧ pairOf n ∉ l₁.map pairOf) := by
  have hb := buildListsAux_eq kept []
  have h1 : (buildLists kept).1 = (dedupByKey pairOf kept).map csOf := by
    rw [buildLists, hb]; rfl
  have hpairs : (buildLists kept).1.map (fun c => (c.workspace_id, c.file_name))
      = (dedupByKey pairOf kept).map pairOf := by
    rw [h1, map_pair_csOf]
  refine ⟨by rw [buildLists, hb], h1, dedupByKeyAux_sublist pairOf kept [], ?_, ?_, ?_⟩
  · rw [hpairs]
    exact (dedupByKeyAux_nodup pairOf kept []).1
  · intro n hn
    rw [hpairs]
    rcases dedupByKeyAux_covers pairOf kept [] n hn with habs | hcov
    · cases habs
    · exact hcov
  · intro n hn
    exact (dedupByKeyAux_first_occ pairOf kept [] n hn).2

/-- Witness for C4 on three kept hits, two sharing the pair `(hr, policy.pdf)`
and one with the same file name under tenant `global`: the display list
dedups the repeated pair but keeps both tenants, the persisted list keeps all
three. -/
theorem c4_display_vs_persisted_witness :
    (buildLists [⟨some (mkRat 42 100), "policy.pdf", some "1", "hr", "c1"⟩,
                 ⟨some (mkRat 38 100), "policy.pdf", some "1", "global", "c2"⟩,
                 ⟨some (mkRat 2 10), "policy.pdf", some "2", "hr", "c3"⟩]).1
      = [⟨"policy.pdf", "hr", "c1"⟩, ⟨"policy.pdf", "global", "c2"⟩]
  ∧ (buildLists [⟨some (mkRat 42 100), "policy.pdf", some "1", "hr", "c1"⟩,
                 ⟨some (mkRat 38 100), "policy.pdf", some "1", "global", "c2"⟩,
                 ⟨some (mkRat 2 10), "policy.pdf", some "2", "hr", "c3"⟩]).2
      = [⟨"policy.pdf", some "1", round4 (mkRat 42 100), "hr", "c1"⟩,
         ⟨"policy.pdf", some "1", round4 (mkRat 38 100), "global", "c2"⟩,
         ⟨"policy.pdf", some "2", round4 (mkRat 2 10), "hr", "c3"⟩] := by
  have h := c4_display_vs_persisted
    [⟨some (mkRat 42 100), "policy.pdf", some "1", "hr", "c1"⟩,
     ⟨some (mkRat 38 100), "policy.pdf", some "1", "global", "c2"⟩,
     ⟨some (mkRat 2 10), "policy.pdf", some "2", "hr", "c3"⟩]
  refine ⟨?_, ?_⟩
  · rw [h.2.1]; decide
  · rw [h.1]; decide

/-! ## Claim C2 — unresolvable session ids fall through to creation -/

/-- Claim C2: a session id that does not resolve to a session owned by the
caller (unknown, or owned by another user) makes the turn behave identically
to a turn with no session id: the same resolution result, the same full turn,
a new session with id `freshId` and title the first 20 characters of the
question, and — given the fresh id really is globally unique — a session table
whose ids stay pairwise distinct.  No error value exists anywhere: resolution
is a total function. -/
theorem c2_ownership_isolation (db : Db) (user : UserRec) (sid q freshId : String)
    (now : ℕ) (h : lookupSession db sid user.id = none) :
    resolveOrCreate db (some sid) user.id q freshId now
      = resolveOrCreate db none user.id q freshId now
  ∧ (∀ nodes tokens persist_ok,
      chat_turn db (some sid) user q freshId now nodes tokens persist_ok
        = chat_turn db none user q freshId now nodes tokens persist_ok)
  ∧ (resolveOrCreate db (some sid) user.id q freshId now).1 = freshId
  ∧ (resolveOrCreate db (some sid) user.id q freshId now).2.1 = true
  ∧ (resolveOrCreate db (some sid) user.id q freshId now).2.2.sessions
      = db.sessions ++ [⟨freshId, user.id, strTake q 20, now, now⟩]
  ∧ ((db.sessions.map SessionRec.id).Nodup → freshId ∉ db.sessions.map SessionRec.id →
      (((resolveOrCreate db (some sid) user.id q freshId now).2.2.sessions).map
          SessionRec.id).Nodup) := by
  have hres : resolveOrCreate db (some sid) user.id q freshId now
      = resolveOrCreate db none user.id q freshId now := by
    simp [resolveOrCreate, h]
  refine ⟨hres, fun nodes tokens persist_ok => ?_, ?_, ?_, ?_, fun hnd hfresh => ?_⟩
  · simp only [chat_turn, hres]
  · simp [resolveOrCreate, h]
  · simp [resolveOrCreate, h]
  · simp [resolveOrCreate, h]
  · have : (resolveOrCreate db (some sid) user.id q freshId now).2.2.sessions
        = db.sessions ++ [⟨freshId, user.id, strTake q 20, now, now⟩] := by
      simp [resolveOrCreate, h]
    rw [this, List.map_append]
    simp only [List.map_cons, List.map_nil]
    rw [List.nodup_append]
    refine ⟨hnd, List.nodup_singleton _, ?_⟩
    intro a ha hmem
    rw [List.mem_singleton] at hmem
    exact hfresh (hmem ▸ ha)

/-- Witness for C2: user 1 supplies a session id owned by user 2; the turn is
the same as supplying no session id at all. -/
theorem c2_ownership_isolation_witness :
    resolveOrCreate ⟨[⟨"s1", 2, "t", 0, 0⟩], []⟩ (some "s1") 1 "what is X?" "fresh-1" 5
      = resolveOrCreate ⟨[⟨"s1", 2, "t", 0, 0⟩], []⟩ none 1 "what is X?" "fresh-1" 5
  ∧ (resolveOrCreate ⟨[⟨"s1", 2, "t", 0, 0⟩], []⟩ (some "s1") 1 "what is X?" "fresh-1" 5).2.2.sessions
      = [⟨"s1", 2, "t", 0, 0⟩] ++ [⟨"fresh-1", 1, strTake "what is X?" 20, 5, 5⟩]
  ∧ ((((resolveOrCreate ⟨[⟨"s1", 2, "t", 0, 0⟩], []⟩ (some "s1") 1 "what is X?"
        "fresh-1" 5).2.2.sessions).map SessionRec.id).Nodup) := by
  have h := c2_ownership_isolation ⟨[⟨"s1", 2, "t", 0, 0⟩], []⟩ ⟨1, "member", none⟩
    "s1" "what is X?" "fresh-1" 5 (by decide)
  exact ⟨h.1, h.2.2.2.2.1, h.2.2.2.2.2 (by decide) (by decide)⟩

/-! ## Claim C6 — history window -/

/-- Claim C6: the history handed to the generator consists of the session's
most recent 10 stored messages in chronological order, minus every entry whose
role is `user` and whose text equals the current question; entries of role
`assistant` are never removed, even when textually identical to the
question. -/
theorem c6_history_window (db : Db) (sid q : String) :
    loadRecentHistory db sid
      = (sessionMessages db sid).drop ((sessionMessages db sid).length - 10)
  ∧ (loadRecentHistory db sid).length ≤ 10
  ∧ (historyKeptMsgs db sid q).Sublist (loadRecentHistory db sid)
  ∧ (∀ m ∈ historyKeptMsgs db sid q, ¬(m.role = "user" ∧ m.content = q))
  ∧ (∀ m ∈ loadRecentHistory db sid, ¬(m.role = "user" ∧ m.content = q) →
      m ∈ historyKeptMsgs db sid q)
  ∧ (∀ m ∈ loadRecentHistory db sid, m.role = "assistant" →
      m ∈ historyKeptMsgs db sid q)
  ∧ buildHistory db sid q = (historyKeptMsgs db sid q).map toLlama := by
  refine ⟨?_, ?_, List.filter_sublist _, fun m hm => ?_, fun m hm hnot => ?_,
    fun m hm hrole => ?_, rfl⟩
  · rw [loadRecentHistory, ← List.rtake_eq_reverse_take_reverse]; rfl
  · simp only [loadRecentHistory, List.length_reverse, List.length_take]
    exact min_le_left _ _
  · intro hpair
    have hk := (List.mem_filter.mp hm).2
    rw [keepInHistory] at hk
    obtain ⟨hrole, hcontent⟩ := hpair
    simp [hrole, hcontent] at hk
  · refine List.mem_filter.mpr ⟨hm, ?_⟩
    rw [keepInHistory]
    by_cases hc : m.content = q
    · have hr : m.role ≠ "user" := fun hr => hnot ⟨hr, hc⟩
      simp [hc, hr]
    · simp [hc]
  · refine List.mem_filter.mpr ⟨hm, ?_⟩
    have : (m.role == "user") = false := by
      rw [hrole]; rfl
    simp [keepInHistory, this]

/-- Witness for C6 at the spec's example: stored history
`[user "hi", assistant "hello", user "what is X?"]` and current question
`"what is X?"` reconstructs the window `[user "hi", assistant "hello"]`. -/
theorem c6_history_window_witness :
    buildHistory
        ⟨[], [⟨"s", "user", "hi", [], 0⟩, ⟨"s", "assistant", "hello", [], 1⟩,
              ⟨"s", "user", "what is X?", [], 2⟩]⟩
        "s" "what is X?"
      = [(LlamaRole.user, "hi"), (LlamaRole.assistant, "hello")] := by
  rw [(c6_history_window
    ⟨[], [⟨"s", "user", "hi", [], 0⟩, ⟨"s", "assistant", "hello", [], 1⟩,
          ⟨"s", "user", "what is X?", [], 2⟩]⟩ "s" "what is X?").2.2.2.2.2.2]
  decide

/-! ## Claim C7 — persisted assistant message -/

/-- Claim C7: when a turn streams to completion (curation succeeded and the
final write commits), the persisted assistant message's content equals the
concatenation, in emission order, of the payloads of all `content` frames sent
to the caller, and it carries the persisted-source list (every kept hit via
`dbOf`), not the deduplicated display list. -/
theorem c7_persisted_content (is_new : Bool) (sid : String) (nodes : List SourceNode)
    (tokens : List String) (now : ℕ) (kept : List SourceNode)
    (hc : curate nodes = Except.ok kept) :
    ∃ msg, (event_generator is_new sid nodes tokens true now).persisted = some msg
      ∧ msg.content
          = String.join (contentPayloads (event_generator is_new sid nodes tokens true now).frames)
      ∧ msg.sources = (buildLists kept).2
      ∧ msg.sources = kept.map dbOf
      ∧ msg.role = "assistant"
      ∧ msg.session_id = sid := by
  refine ⟨⟨sid, "assistant", String.join tokens, (buildLists kept).2, now⟩, ?_, ?_, rfl,
    ?_, rfl, rfl⟩
  · simp [event_generator, hc]
  · simp [event_generator, hc, contentPayloads_stream]
  · rw [buildLists, buildListsAux_eq kept []]

/-- Witness for C7: a new-session turn with one kept hit and two generated
fragments; the persisted content is the concatenation of the two `content`
payloads. -/
theorem c7_persisted_content_witness :
    ∃ msg,
      (event_generator true "s1" [⟨some (mkRat 3 10), "f.pdf", some "2", "hr", "tx"⟩]
          ["ab", "cd"] true 7).persisted = some msg
      ∧ msg.content = String.join (contentPayloads
          (event_generator true "s1" [⟨some (mkRat 3 10), "f.pdf", some "2", "hr", "tx"⟩]
            ["ab", "cd"] true 7).frames)
      ∧ msg.sources = (buildLists [⟨some (mkRat 3 10), "f.pdf", some "2", "hr", "tx"⟩]).2
      ∧ msg.sources = [⟨some (mkRat 3 10), "f.pdf", some "2", "hr", "tx"⟩].map dbOf
      ∧ msg.role = "assistant"
      ∧ msg.session_id = "s1" :=
  c7_persisted_content true "s1" [⟨some (mkRat 3 10), "f.pdf", some "2", "hr", "tx"⟩]
    ["ab", "cd"] 7 [⟨some (mkRat 3 10), "f.pdf", some "2", "hr", "tx"⟩] (by decide)

/-! ## Claim C8 — post-generation persistence failure is swallowed -/

/-- Claim C8: if the post-generation write of the assistant message fails, the
failure is swallowed: the emitted frames are exactly the frames of a turn whose
write succeeds, the generator terminates without error, and only the write
itself is lost. -/
theorem c8_persist_failure_swallowed (is_new : Bool) (sid : String)
    (nodes : List SourceNode) (tokens : List String) (now : ℕ)
    (kept : List SourceNode) (hc : curate nodes = Except.ok kept) :
    (event_generator is_new sid nodes tokens false now).frames
      = (event_generator is_new sid nodes tokens true now).frames
  ∧ (event_generator is_new sid nodes tokens false now).errored = false
  ∧ (event_generator is_new sid nodes tokens false now).persisted = none := by
  refine ⟨?_, ?_, ?_⟩ <;> simp [event_generator, hc]

/-- Witness for C8 on a concrete turn whose assistant-message write fails. -/
theorem c8_persist_failure_swallowed_witness :
    (event_generator false "s2" [⟨some (mkRat 2 10), "g.pdf", none, "global", "ty"⟩]
        ["tok"] false 3).frames
      = (event_generator false "s2" [⟨some (mkRat 2 10), "g.pdf", none, "global", "ty"⟩]
          ["tok"] true 3).frames
  ∧ (event_generator false "s2" [⟨some (mkRat 2 10), "g.pdf", none, "global", "ty"⟩]
      ["tok"] false 3).errored = false
  ∧ (event_generator false "s2" [⟨some (mkRat 2 10), "g.pdf", none, "global", "ty"⟩]
      ["tok"] false 3).persisted = none :=
  c8_persist_failure_swallowed false "s2" [⟨some (mkRat 2 10), "g.pdf", none, "global", "ty"⟩]
    ["tok"] 3 [⟨some (mkRat 2 10), "g.pdf", none, "global", "ty"⟩] (by decide)

/-! ## Claim C10 — read-time dedup of persisted sources -/

/-- Claim C10: reading a session's messages back deduplicates each assistant
message's persisted source list by first occurrence of `(workspace_id,
file_name)` — at most one source per pair, each surviving source the first
occurrence of its pair — while user messages are returned unchanged and the
message order and non-source fields are untouched. -/
theorem c10_read_dedup (db : Db) (sid : String) (uid : ℕ) (msgs : List DbChatMessage)
    (h : get_session_messages db sid uid = Except.ok msgs) :
    msgs = (sessionMessages db sid).map readTransform
  ∧ (∀ m, m.role = "user" → readTransform m = m)
  ∧ (∀ m, (readTransform m).role = m.role ∧ (readTransform m).content = m.content
      ∧ (readTransform m).session_id = m.session_id
      ∧ (readTransform m).created_at = m.created_at)
  ∧ (∀ m : DbChatMessage, m.role = "assistant" →
      (((readTransform m).sources).map srcPair).Nodup)
  ∧ (∀ m : DbChatMessage, ((readTransform m).sources).Sublist m.sources)
  ∧ (∀ m : DbChatMessage, ∀ s ∈ m.sources,
      srcPair s ∈ ((readTransform m).sources).map srcPair)
  ∧ (∀ m : DbChatMessage, m.role = "assistant" → ∀ s ∈ (readTransform m).sources,
      ∃ l₁ l₂, m.sources = l₁ ++ s :: l₂ ∧ srcPair s ∉ l₁.map srcPair) := by
  have hmsgs : msgs = (sessionMessages db sid).map readTransform := by
    rw [get_session_messages] at h
    cases hl : lookupSession db sid uid with
    | none => rw [hl] at h; cases h
    | some s =>
      rw [hl] at h
      exact (Except.ok.inj h).symm
  have hkeep : ∀ m : DbChatMessage,
      ¬(m.role == "assistant" && !m.sources.isEmpty) = true → readTransform m = m := by
    intro m hm
    rw [readTransform, if_neg hm]
  have hempty : ∀ m : DbChatMessage, m.role = "assistant" →
      ¬(m.role == "assistant" && !m.sources.isEmpty) = true → m.sources = [] := by
    intro m hrole hm
    by_contra hne
    refine hm ?_
    have : m.sources.isEmpty = false := by
      cases he : m.sources.isEmpty
      · rfl
      · exact absurd (List.isEmpty_iff.mp he) hne
    simp [hrole, this]
  refine ⟨hmsgs, fun m hrole => ?_, fun m => ?_, fun m hrole => ?_, fun m => ?_,
    fun m s hs => ?_, fun m hrole s hs => ?_⟩
  · refine hkeep m ?_
    rw [hrole]
    simp
  · by_cases hm : (m.role == "assistant" && !m.sources.isEmpty) = true
    · rw [readTransform, if_pos hm]
      exact ⟨rfl, rfl, rfl, rfl⟩
    · rw [hkeep m hm]
      exact ⟨rfl, rfl, rfl, rfl⟩
  · by_cases hm : (m.role == "assistant" && !m.sources.isEmpty) = true
    · rw [readTransform, if_pos hm]
      exact (dedupByKeyAux_nodup srcPair m.sources []).1
    · rw [hkeep m hm, hempty m hrole hm]
      simp
  · by_cases hm : (m.role == "assistant" && !m.sources.isEmpty) = true
    · rw [readTransform, if_pos hm]
      exact dedupByKeyAux_sublist srcPair m.sources []
    · rw [hkeep m hm]
  · by_cases hm : (m.role == "assistant" && !m.sources.isEmpty) = true
    · rw [readTransform, if_pos hm]
      rcases dedupByKeyAux_covers srcPair m.sources [] s hs with habs | hcov
      · cases habs
      · exact hcov
    · rw [hkeep m hm]
      exact List.mem_map_of_mem srcPair hs
  · by_cases hm : (m.role == "assistant" && !m.sources.isEmpty) = true
    · rw [readTransform, if_pos hm] at hs
      exact (dedupByKeyAux_first_occ srcPair m.sources [] s hs).2
    · rw [hkeep m hm, hempty m hrole hm] at hs
      cases hs

/-- Witness for C10: a session with one user message and one assistant message
whose persisted sources repeat the pair `(hr, p.pdf)` over two pages; the
endpoint returns the user message unchanged and the assistant sources reduced
to one entry per pair, first occurrences kept. -/
theorem c10_read_dedup_witness :
    get_session_messages
        ⟨[⟨"sA", 1, "t", 0, 0⟩],
         [⟨"sA", "user", "q", [], 0⟩,
          ⟨"sA", "assistant", "ans",
            [⟨"p.pdf", some "1", mkRat 9 10, "hr", "c1"⟩,
             ⟨"p.pdf", some "2", mkRat 8 10, "hr", "c2"⟩,
             ⟨"p.pdf", none, mkRat 7 10, "global", "c3"⟩], 1⟩]⟩ "sA" 1
      = Except.ok
          [⟨"sA", "user", "q", [], 0⟩,
           ⟨"sA", "assistant", "ans",
             [⟨"p.pdf", some "1", mkRat 9 10, "hr", "c1"⟩,
              ⟨"p.pdf", none, mkRat 7 10, "global", "c3"⟩], 1⟩]
  ∧ (((readTransform ⟨"sA", "assistant", "ans",
        [⟨"p.pdf", some "1", mkRat 9 10, "hr", "c1"⟩,
         ⟨"p.pdf", some "2", mkRat 8 10, "hr", "c2"⟩,
         ⟨"p.pdf", none, mkRat 7 10, "global", "c3"⟩], 1⟩).sources).map srcPair).Nodup := by
  have h := c10_read_dedup
    ⟨[⟨"sA", 1, "t", 0, 0⟩],
     [⟨"sA", "user", "q", [], 0⟩,
      ⟨"sA", "assistant", "ans",
        [⟨"p.pdf", some "1", mkRat 9 10, "hr", "c1"⟩,
         ⟨"p.pdf", some "2", mkRat 8 10, "hr", "c2"⟩,
         ⟨"p.pdf", none, mkRat 7 10, "global", "c3"⟩], 1⟩]⟩ "sA" 1
    [⟨"sA", "user", "q", [], 0⟩,
     ⟨"sA", "assistant", "ans",
       [⟨"p.pdf", some "1", mkRat 9 10, "hr", "c1"⟩,
        ⟨"p.pdf", none, mkRat 7 10, "global", "c3"⟩], 1⟩] (by decide)
  exact ⟨by decide, h.2.2.2.1 _ rfl⟩

/-! ## Claim C5 — frame order and session continuity -/

/-- Claim C5: when the turn creates a new session (no session id, or an id that
does not resolve for this user) the stream is exactly one `session_id` frame
first, then exactly one `sources` frame, then the `content` frames; when an
owned session id is supplied no `session_id` frame is ever emitted, the
`sources` frame still appears exactly once before every `content` frame, and
the session's `updated_at` is strictly increased (to the turn's clock `now`,
assumed later than the stored timestamp). -/
theorem c5_frame_order (db : Db) (user : UserRec) (q freshId : String) (now : ℕ)
    (nodes : List SourceNode) (tokens : List String) (persist_ok : Bool)
    (kept : List SourceNode) (hc : curate nodes = Except.ok kept) :
    (∀ sid?, (sid? = none ∨ ∃ sid, sid? = some sid ∧ lookupSession db sid user.id = none) →
      (chat_turn db sid? user q freshId now nodes tokens persist_ok).1.frames
        = Frame.session_id freshId :: Frame.sources (buildLists kept).1
            :: tokens.map Frame.content
      ∧ ((chat_turn db sid? user q freshId now nodes tokens persist_ok).1.frames.countP
          isSessionIdFrame) = 1
      ∧ ((chat_turn db sid? user q freshId now nodes tokens persist_ok).1.frames.countP
          isSourcesFrame) = 1)
  ∧ (∀ sid s, lookupSession db sid user.id = some s →
      (chat_turn db (some sid) user q freshId now nodes tokens persist_ok).1.frames
        = Frame.sources (buildLists kept).1 :: tokens.map Frame.content
      ∧ ((chat_turn db (some sid) user q freshId now nodes tokens persist_ok).1.frames.countP
          isSessionIdFrame) = 0
      ∧ ((chat_turn db (some sid) user q freshId now nodes tokens persist_ok).1.frames.countP
          isSourcesFrame) = 1
      ∧ (s.updated_at < now →
          ∃ s2, lookupSession
              (chat_turn db (some sid) user q freshId now nodes tokens persist_ok).2
              sid user.id = some s2
            ∧ s.updated_at < s2.updated_at ∧ s2.updated_at = now)) := by
  have hcontent_sid : ∀ t, isSessionIdFrame (Frame.content t) = false := fun t => rfl
  have hcontent_src : ∀ t, isSourcesFrame (Frame.content t) = false := fun t => rfl
  constructor
  · intro sid? hmiss
    have hres : (resolveOrCreate db sid? user.id q freshId now).1 = freshId
        ∧ (resolveOrCreate db sid? user.id q freshId now).2.1 = true := by
      rcases hmiss with hnone | ⟨sid, hsome, hl⟩
      · rw [hnone]; exact ⟨rfl, rfl⟩
      · rw [hsome]; constructor <;> simp [resolveOrCreate, hl]
    have hframes : (chat_turn db sid? user q freshId now nodes tokens persist_ok).1.frames
        = Frame.session_id freshId :: Frame.sources (buildLists kept).1
            :: tokens.map Frame.content := by
      rw [chat_turn_fst, hres.1, hres.2,
        event_generator_frames true freshId nodes tokens persist_ok now kept hc]
      rfl
    refine ⟨hframes, ?_, ?_⟩
    · rw [hframes]
      simp [List.countP_cons, countP_content_map isSessionIdFrame hcontent_sid tokens,
        isSessionIdFrame, isSourcesFrame]
    · rw [hframes]
      simp [List.countP_cons, countP_content_map isSourcesFrame hcontent_src tokens,
        isSessionIdFrame, isSourcesFrame]
  · intro sid s hl
    have hres1 : (resolveOrCreate db (some sid) user.id q freshId now).1 = s.id := by
      simp [resolveOrCreate, hl]
    have hres2 : (resolveOrCreate db (some sid) user.id q freshId now).2.1 = false := by
      simp [resolveOrCreate, hl]
    have hframes : (chat_turn db (some sid) user q freshId now nodes tokens persist_ok).1.frames
        = Frame.sources (buildLists kept).1 :: tokens.map Frame.content := by
      rw [chat_turn_fst, hres1, hres2,
        event_generator_frames false s.id nodes tokens persist_ok now kept hc]
      rfl
    refine ⟨hframes, ?_, ?_, ?_⟩
    · rw [hframes]
      simp [List.countP_cons, countP_content_map isSessionIdFrame hcontent_sid tokens,
        isSessionIdFrame]
    · rw [hframes]
      simp [List.countP_cons, countP_content_map isSourcesFrame hcontent_src tokens,
        isSourcesFrame]
    · intro hlt
      refine ⟨{ s with updated_at := now }, ?_, hlt, rfl⟩
      rw [lookupSession, chat_turn_snd_sessions]
      have hsess : (resolveOrCreate db (some sid) user.id q freshId now).2.2.sessions
          = db.sessions.map (fun t => if t.id == s.id && t.user_id == user.id
              then { t with updated_at := now } else t) := by
        simp [resolveOrCreate, hl]
      rw [hsess]
      exact lookupSession_after_touch db.sessions sid user.id s now hl

/-- Witness for C5: a one-session database; a turn with an unknown session id
streams `session_id`, `sources`, `content`; a turn with the owned id `"sA"`
streams no `session_id` frame and bumps `updated_at` from 0 to 5. -/
theorem c5_frame_order_witness :
    (chat_turn ⟨[⟨"sA", 1, "t", 0, 0⟩], []⟩ (some "zz") ⟨1, "member", none⟩ "hi" "nf" 5
        [⟨some (mkRat 3 10), "f.pdf", none, "hr", "tx"⟩] ["x"] true).1.frames
      = Frame.session_id "nf"
          :: Frame.sources (buildLists [⟨some (mkRat 3 10), "f.pdf", none, "hr", "tx"⟩]).1
          :: (["x"].map Frame.content)
  ∧ (chat_turn ⟨[⟨"sA", 1, "t", 0, 0⟩], []⟩ (some "sA") ⟨1, "member", none⟩ "hi" "nf" 5
        [⟨some (mkRat 3 10), "f.pdf", none, "hr", "tx"⟩] ["x"] true).1.frames
      = Frame.sources (buildLists [⟨some (mkRat 3 10), "f.pdf", none, "hr", "tx"⟩]).1
          :: (["x"].map Frame.content)
  ∧ ∃ s2, lookupSession
        (chat_turn ⟨[⟨"sA", 1, "t", 0, 0⟩], []⟩ (some "sA") ⟨1, "member", none⟩ "hi" "nf" 5
          [⟨some (mkRat 3 10), "f.pdf", none, "hr", "tx"⟩] ["x"] true).2 "sA" 1
      = some s2 ∧ 0 < s2.updated_at := by
  have h := c5_frame_order ⟨[⟨"sA", 1, "t", 0, 0⟩], []⟩ ⟨1, "member", none⟩ "hi" "nf" 5
    [⟨some (mkRat 3 10), "f.pdf", none, "hr", "tx"⟩] ["x"] true
    [⟨some (mkRat 3 10), "f.pdf", none, "hr", "tx"⟩] (by decide)
  have hA := (h.1 (some "zz") (Or.inr ⟨"zz", rfl, by decide⟩)).1
  have hB := h.2 "sA" ⟨"sA", 1, "t", 0, 0⟩ (by decide)
  obtain ⟨s2, hs2, hlt, _⟩ := hB.2.2.2 (by decide)
  exact ⟨hA, hB.1, s2, hs2, hlt⟩

end LlamaRag
